import Mathlib

/-!
Verification of the stock-dashboard pipeline in `run.py`.

The pipeline consists of four functions — `fetch_stock_data`, `process_data`,
`calculate_metrics`, `add_technical_indicators` — plus the update-button
handler that composes them.  We model a pandas `DataFrame` shallowly:

* prices are exact rationals (`ℚ`); a missing value (`NaN`) is `none`;
* a column is a list of optional rationals, a frame is a named list of columns
  together with its index;
* the index is either a datetime index (with an optional timezone label and a
  name, carrying the timestamps as rationals — timezone conversion changes only
  the label, never the stored instants) or the integer `RangeIndex` that
  `reset_index` leaves behind;
* every modelled function returns, besides its value, a `Bool` recording
  whether it reported an error to the user (`st.error`) on that run; Python
  exception control flow becomes the corresponding early-return branch.

Library calls are modelled by their documented semantics:
`Series.fillna(method=ffill/bfill)` as forward/backward propagation,
`ta.trend.sma_indicator(close, 20)` as `close.rolling(20, min_periods=20).mean()`,
`ta.trend.ema_indicator(close, 20)` as
`close.ewm(span=20, min_periods=20, adjust=False).mean()`.  The two indicator
models are faithful on dense (`NaN`-free) columns, which are the only columns
the stage ever feeds them: it fills the close column first.
-/

/-- A column of a frame: one optional rational per row (`none` = `NaN`). -/
abbrev Col := List (Option ℚ)

/-- The index of a frame: either a pandas `DatetimeIndex` (name, optional
timezone label, timestamps) or the integer `RangeIndex` produced by
`reset_index`. -/
inductive DIndex where
  | dt (name : String) (tz : Option String) (vals : List ℚ)
  | range (n : ℕ)
deriving DecidableEq, Repr

/-- A shallow pandas `DataFrame`: an index plus named columns. -/
structure DFrame where
  index : DIndex
  cols : List (String × Col)
deriving DecidableEq, Repr

/-- `pd.DataFrame()`: the empty frame returned on the error paths. -/
def DFrame.emptyDF : DFrame := ⟨.range 0, []⟩

/-- Number of rows (the length of the index). -/
def DFrame.nrows (df : DFrame) : ℕ :=
  match df.index with
  | .dt _ _ vals => vals.length
  | .range n => n

/-- pandas `DataFrame.empty`: true when an axis has length zero. -/
def DFrame.isEmpty (df : DFrame) : Bool :=
  df.nrows == 0 || df.cols.isEmpty

/-- `df[name]`: the first column with the given name, if any. -/
def lookupCol (name : String) (df : DFrame) : Option Col :=
  (df.cols.find? (fun p => p.1 = name)).map (fun p => p.2)

/-- `df[name] = c`: overwrite the column if present, else append it. -/
def setCol (name : String) (c : Col) (df : DFrame) : DFrame :=
  if df.cols.any (fun p => p.1 = name) then
    ⟨df.index, df.cols.map (fun p => if p.1 = name then (name, c) else p)⟩
  else
    ⟨df.index, df.cols ++ [(name, c)]⟩

/-- `process_data` (run.py lines 33-43).  On a datetime index: localize to UTC
when the index is timezone-naive, convert to US/Eastern (both leave the stored
instants untouched), `reset_index` (the index becomes the leading column and a
`RangeIndex` takes its place), and rename a `Date` column to `Datetime`.  On
any other index, `data.index.tzinfo` raises `AttributeError`, the handler
reports the error and returns `pd.DataFrame()`. -/
def process_data (df : DFrame) : DFrame × Bool :=
  match df.index with
  | .dt name _tz vals =>
      let cols1 := (name, vals.map some) :: df.cols
      let cols2 := cols1.map
        (fun p => (if p.1 = "Date" then "Datetime" else p.1, p.2))
      (⟨.range vals.length, cols2⟩, false)
  | .range _ => (DFrame.emptyDF, true)

/-- Forward fill with an explicit carry: a present value is kept and becomes
the new carry, a missing value is replaced by the carry. -/
def ffillAux : Option ℚ → Col → Col
  | _, [] => []
  | _, some x :: rest => some x :: ffillAux (some x) rest
  | carry, none :: rest => carry :: ffillAux carry rest

/-- `Series.fillna(method=ffill)`: carry the last known value forward;
leading missing values stay missing. -/
def ffill (c : Col) : Col := ffillAux none c

/-- `Series.fillna(method=bfill)`: replace a missing value by the next known
value; trailing missing values stay missing. -/
def bfill : Col → Col
  | [] => []
  | some x :: rest => some x :: bfill rest
  | none :: rest =>
      match bfill rest with
      | [] => [none]
      | y :: t => y :: y :: t

/-- `ta.trend.sma_indicator(close, window=w)`, i.e.
`close.rolling(w, min_periods=w).mean()`: at row `i` the mean of the window
`[i-w+1..i]`, provided it holds `w` non-missing values, else `NaN`. -/
def sma (w : ℕ) (c : Col) : Col :=
  (List.range c.length).map (fun i =>
    let xs := ((c.take (i + 1)).drop (i + 1 - w)).filterMap id
    if xs.length = w then some (xs.sum / (w : ℚ)) else none)

/-- The `adjust=False` exponential recursion of pandas `ewm`: given the
previous smoothed value, each new observation `x` yields
`(1-α)·prev + α·x`. -/
def emaAux (α : ℚ) : ℚ → List ℚ → List ℚ
  | _, [] => []
  | prev, x :: rest =>
      let y := (1 - α) * prev + α * x
      y :: emaAux α y rest

/-- `ta.trend.ema_indicator(close, window=w)`, i.e.
`close.ewm(span=w, min_periods=w, adjust=False).mean()` with `α = 2/(w+1)`:
the recursion starts at the first observation (`y₀ = x₀`) and the first `w-1`
outputs are masked to `NaN` by `min_periods`.  Faithful on dense columns,
the only columns the pipeline feeds it. -/
def ema (w : ℕ) (c : Col) : Col :=
  let α : ℚ := 2 / ((w : ℚ) + 1)
  let ys : List ℚ :=
    match c.filterMap id with
    | [] => []
    | x0 :: rest => x0 :: emaAux α x0 rest
  (List.range c.length).map (fun i =>
    if i + 1 < w then none else ys.get? i)

/-- The exponential smoothing sequence in the spec's words, propagated from
the first available price: `y₀` is the first closing price and
`yₜ = (1-α)·yₜ₋₁ + α·xₜ` with `α = 2/(20+1)`.  (Indices past the end of the
series read a junk `0` and are never used.) -/
def emaPropSeq (vs : List ℚ) : ℕ → ℚ
  | 0 => vs.headD 0
  | i + 1 => (1 - 2 / 21) * emaPropSeq vs i + (2 / 21) * vs.getD (i + 1) 0

/-- Modelled from the spec for comparison with the code: the exponential
smoothing sequence the claim describes, `α = 2/(20+1)` but seeded by the
simple average of the first 20 closing prices, so that at row 19 its value is
that simple average. -/
def emaSeeded20 (vs : List ℚ) : ℕ → ℚ
  | 0 => (vs.take 20).sum / 20
  | i + 1 =>
      if i + 1 ≤ 19 then (vs.take 20).sum / 20
      else (1 - 2 / 21) * emaSeeded20 vs i + (2 / 21) * vs.getD (i + 1) 0

/-- The smoothed value reached after walking `i+1` observations of `rest`
starting from state `prev`: a list-consuming presentation of the `adjust=False`
recursion, used to tie `emaAux` to `emaPropSeq`. -/
def emaStep (α : ℚ) : ℚ → List ℚ → ℕ → ℚ
  | prev, [], _ => prev
  | prev, x :: _, 0 => (1 - α) * prev + α * x
  | prev, x :: r, i + 1 => emaStep α ((1 - α) * prev + α * x) r i

/-- `add_technical_indicators` (run.py lines 61-76).  If the `Close` column is
missing or all-`NaN`, a `ValueError` is raised, caught and reported, and the
original frame is returned (error flag `true`).  Otherwise the close column is
forward- then backward-filled in place and the `SMA_20` / `EMA_20` columns of
the filled closes are attached. -/
def add_technical_indicators (df : DFrame) : DFrame × Bool :=
  match lookupCol "Close" df with
  | none => (df, true)
  | some cs =>
      if cs.all (fun x => x.isNone) then (df, true)
      else
        let filled := bfill (ffill cs)
        let d1 := setCol "Close" filled df
        let d2 := setCol "SMA_20" (sma 20 filled) d1
        let d3 := setCol "EMA_20" (ema 20 filled) d2
        (d3, false)

/-- The six metrics of `calculate_metrics`, each optional because a `NaN`
input propagates (`float(nan)` is a quiet `nan` in Python). -/
structure Metrics where
  last_close : Option ℚ
  change : Option ℚ
  pct_change : Option ℚ
  high : Option ℚ
  low : Option ℚ
  volume : Option ℚ
deriving DecidableEq, Repr

/-- The all-zero tuple `(0, 0, 0, 0, 0, 0)` returned by the `except` branch of
`calculate_metrics`. -/
def Metrics.zeros : Metrics := ⟨some 0, some 0, some 0, some 0, some 0, some 0⟩

/-- Subtraction on optional values: `NaN` propagates. -/
def osub (a b : Option ℚ) : Option ℚ :=
  match a, b with
  | some x, some y => some (x - y)
  | _, _ => none

/-- `(change / prev) * 100` on optional values, reached only when the divisor
is not the literal zero: `NaN` propagates. -/
def opct (change prev : Option ℚ) : Option ℚ :=
  match change, prev with
  | some c, some p => some (c / p * 100)
  | _, _ => none

/-- `Series.max()` with pandas `skipna` semantics: maximum of the present
values, `NaN` when none are present. -/
def colMax (c : Col) : Option ℚ :=
  (c.filterMap id).foldl
    (fun acc x => match acc with | none => some x | some m => some (max m x)) none

/-- `Series.min()` with pandas `skipna` semantics. -/
def colMin (c : Col) : Option ℚ :=
  (c.filterMap id).foldl
    (fun acc x => match acc with | none => some x | some m => some (min m x)) none

/-- `Series.sum()` with pandas `skipna` semantics (empty / all-`NaN` sums
to `0`). -/
def colSum (c : Col) : ℚ := (c.filterMap id).sum

/-- `calculate_metrics` (run.py lines 46-58).  Reads the first and last close,
their difference and percent difference, the period high, low and summed
volume.  Any raised exception — a missing required column (`KeyError`), an
empty close column (`IndexError` from `iloc`), or a first close equal to `0`
(Python float `ZeroDivisionError` in `change / prev_close`) — is caught,
reported, and the tuple `(0, 0, 0, 0, 0, 0)` is returned instead. -/
def calculate_metrics (df : DFrame) : Metrics × Bool :=
  match lookupCol "Close" df, lookupCol "High" df,
        lookupCol "Low" df, lookupCol "Volume" df with
  | some close, some high, some low, some vol =>
      if close.isEmpty then (Metrics.zeros, true)
      else
        let last := (close.getLast?).getD none
        let prev := (close.head?).getD none
        if prev = some 0 then (Metrics.zeros, true)
        else
          let change := osub last prev
          (⟨last, change, opct change prev,
            colMax high, colMin low, some (colSum vol)⟩, false)
  | _, _, _, _ => (Metrics.zeros, true)

/-- A retrieval request to the market-data provider (`yf.download`): either an
explicit start/end window or the provider's own period keyword.  Times are in
seconds. -/
inductive ProviderRequest where
  | byWindow (ticker : String) (start stop : ℤ) (interval : String)
  | byPeriod (ticker : String) (period : String) (interval : String)
deriving DecidableEq, Repr

/-- The request `fetch_stock_data` issues (run.py lines 17-22): for period
`1wk` an explicit window from `now - 7 days` to `now`, otherwise the
provider's period keyword. -/
def fetchRequest (ticker period interval : String) (now : ℤ) : ProviderRequest :=
  if period = "1wk" then
    .byWindow ticker (now - 7 * 86400) now interval
  else
    .byPeriod ticker period interval

/-- What the provider call can do: return a frame, or raise (network or
provider error). -/
inductive FetchOutcome where
  | rows (df : DFrame)
  | raised
deriving DecidableEq, Repr

/-- `fetch_stock_data` (run.py lines 15-30), parametrised by the provider's
behaviour.  A raised provider exception and an empty provider result both take
the `except` path: the error is reported (flag `true`) and `pd.DataFrame()` is
returned.  A non-empty result is returned as-is with no error. -/
def fetch_stock_data (provider : ProviderRequest → FetchOutcome)
    (ticker period interval : String) (now : ℤ) : DFrame × Bool :=
  match provider (fetchRequest ticker period interval now) with
  | .raised => (DFrame.emptyDF, true)
  | .rows df => if df.isEmpty then (DFrame.emptyDF, true) else (df, false)

/-- Observable outcome of one run of the update-button handler: whether a
user-visible warning/error was shown for an empty fetch, and the indicator
frame and metrics when those stages ran (`none` when they were skipped). -/
structure RunResult where
  warned : Bool
  indicatorFrame : Option DFrame
  metrics : Option Metrics
deriving DecidableEq, Repr

/-- The update-button handler (run.py lines 103-115), from the fetched frame
on: an empty fetch shows an error and stops (`st.stop`) before any further
computation; otherwise the frame is processed, indicators are added and
metrics are computed. -/
def update_handler (fetched : DFrame) : RunResult :=
  if fetched.isEmpty then ⟨true, none, none⟩
  else
    let d1 := (process_data fetched).1
    let d2 := (add_technical_indicators d1).1
    ⟨false, some d2, some (calculate_metrics d2).1⟩

/-! ### Lemmas about the fill operations -/

lemma ffillAux_map_some (seed : Option ℚ) (vs : List ℚ) :
    ffillAux seed (vs.map some) = vs.map some := by
  induction vs generalizing seed with
  | nil => rfl
  | cons x rest ih => simpa [ffillAux] using ih (some x)

lemma ffill_map_some (vs : List ℚ) : ffill (vs.map some) = vs.map some :=
  ffillAux_map_some none vs

lemma bfill_map_some (vs : List ℚ) : bfill (vs.map some) = vs.map some := by
  induction vs with
  | nil => rfl
  | cons x rest ih => simp [bfill, ih]

lemma ffillAux_length (seed : Option ℚ) (c : Col) :
    (ffillAux seed c).length = c.length := by
  induction c generalizing seed with
  | nil => rfl
  | cons x rest ih =>
      cases x with
      | none => simp [ffillAux, ih]
      | some v => simp [ffillAux, ih]

lemma bfill_length (c : Col) : (bfill c).length = c.length := by
  induction c with
  | nil => rfl
  | cons x rest ih =>
      cases x with
      | some v => simp [bfill, ih]
      | none =>
          rw [bfill]
          rcases h : bfill rest with _ | ⟨y, t⟩ <;>
            simp_all

lemma ffillAux_all_isSome (v : ℚ) (c : Col) :
    (ffillAux (some v) c).all (fun x => x.isSome) = true := by
  induction c generalizing v with
  | nil => rfl
  | cons x rest ih =>
      cases x with
      | none => simpa [ffillAux] using ih v
      | some w => simpa [ffillAux] using ih w

lemma bfill_cons_some (v : ℚ) (c : Col) :
    bfill (some v :: c) = some v :: bfill c := rfl

lemma bfill_all_of_all (c : Col) (h : c.all (fun x => x.isSome) = true) :
    (bfill c).all (fun x => x.isSome) = true := by
  induction c with
  | nil => rfl
  | cons x rest ih =>
      cases x with
      | none => simp at h
      | some v =>
          simp only [List.all_cons, Bool.and_eq_true] at h
          simpa [bfill] using ih h.2

/-- Densification: as soon as the column has one present value, forward fill
followed by backward fill leaves no missing value. -/
lemma bfill_ffillAux_all (c : Col) (seed : Option ℚ)
    (h : seed.isSome = true ∨ c.any (fun x => x.isSome) = true) :
    (bfill (ffillAux seed c)).all (fun x => x.isSome) = true := by
  induction c generalizing seed with
  | nil => rfl
  | cons x rest ih =>
      cases x with
      | some v =>
          have htail := ih (some v) (Or.inl rfl)
          simpa [ffillAux, bfill] using htail
      | none =>
          cases seed with
          | some v =>
              have htail := ih (some v) (Or.inl rfl)
              simpa [ffillAux, bfill] using htail
          | none =>
              have hrest : rest.any (fun x => x.isSome) = true := by
                rcases h with h | h
                · simp at h
                · simpa using h
              have htail := ih none (Or.inr hrest)
              have hne : rest ≠ [] := by
                intro he; rw [he] at hrest; simp at hrest
              have hlen : (bfill (ffillAux none rest)).length ≠ 0 := by
                rw [bfill_length, ffillAux_length]
                simpa using List.length_pos_of_ne_nil hne |>.ne'
              rw [ffillAux]
              rcases hb : bfill (ffillAux none rest) with _ | ⟨y, t⟩
              · exact absurd (by rw [hb]; rfl) hlen
              · rw [bfill]
                rw [hb]
                have : (y :: t).all (fun x => x.isSome) = true := hb ▸ htail
                simp only [List.all_cons, Bool.and_eq_true] at this ⊢
                exact ⟨this.1, this.1, this.2⟩

lemma bfill_ffill_all (c : Col) (h : c.any (fun x => x.isSome) = true) :
    (bfill (ffill c)).all (fun x => x.isSome) = true :=
  bfill_ffillAux_all c none (Or.inr h)

/-! ### Lemmas about column access -/

lemma find?_map_set_self (n : String) (c : Col) (l : List (String × Col))
    (h : l.any (fun p => p.1 = n) = true) :
    (l.map (fun p => if p.1 = n then (n, c) else p)).find? (fun p => p.1 = n)
      = some (n, c) := by
  induction l with
  | nil => simp at h
  | cons p rest ih =>
      by_cases hp : p.1 = n
      · simp [hp, List.find?_cons_of_pos]
      · simp only [List.any_cons, Bool.or_eq_true, decide_eq_true_eq] at h
        rcases h with h | h
        · exact absurd h hp
        · simpa [hp, List.find?_cons_of_neg] using ih h

lemma find?_map_set_ne (n m : String) (hnm : n ≠ m) (c : Col)
    (l : List (String × Col)) :
    (l.map (fun p => if p.1 = m then (m, c) else p)).find? (fun p => p.1 = n)
      = l.find? (fun p => p.1 = n) := by
  induction l with
  | nil => rfl
  | cons p rest ih =>
      by_cases hp : p.1 = m
      · have h2 : ¬ (p.1 = n) := fun hh => hnm (hh.symm.trans hp)
        simpa [hp, hnm.symm, List.find?_cons_of_neg, h2] using ih
      · by_cases hpn : p.1 = n
        · rw [List.map_cons, if_neg hp,
            List.find?_cons_of_pos _ (by simpa using hpn),
            List.find?_cons_of_pos _ (by simpa using hpn)]
        · simpa [hp, hpn, List.find?_cons_of_neg] using ih

lemma find?_append_one (n : String) (c : Col) (l : List (String × Col))
    (h : l.any (fun p => p.1 = n) = false) :
    (l ++ [(n, c)]).find? (fun p => p.1 = n) = some (n, c) := by
  induction l with
  | nil => simp [List.find?_cons_of_pos]
  | cons p rest ih =>
      simp only [List.any_cons, Bool.or_eq_false_iff] at h
      have hp : ¬ (p.1 = n) := by simpa using h.1
      simpa [List.find?_cons_of_neg, hp] using ih h.2

lemma find?_append_other (n m : String) (hnm : n ≠ m) (c : Col)
    (l : List (String × Col)) :
    (l ++ [(m, c)]).find? (fun p => p.1 = n) = l.find? (fun p => p.1 = n) := by
  induction l with
  | nil => simp [List.find?_cons_of_neg, hnm.symm]
  | cons p rest ih =>
      by_cases hpn : p.1 = n
      · rw [List.cons_append,
          List.find?_cons_of_pos _ (by simpa using hpn),
          List.find?_cons_of_pos _ (by simpa using hpn)]
      · simpa [List.find?_cons_of_neg, hpn] using ih

lemma lookupCol_setCol_self (n : String) (c : Col) (df : DFrame) :
    lookupCol n (setCol n c df) = some c := by
  unfold lookupCol setCol
  rcases ha : df.cols.any (fun p => p.1 = n) with _ | _
  · simp only [ha, Bool.false_eq_true, if_neg, not_false_eq_true]
    rw [find?_append_one n c df.cols ha]
    rfl
  · simp only [ha, if_pos]
    rw [find?_map_set_self n c df.cols ha]
    rfl

lemma lookupCol_setCol_ne (n m : String) (hnm : n ≠ m) (c : Col) (df : DFrame) :
    lookupCol n (setCol m c df) = lookupCol n df := by
  unfold lookupCol setCol
  rcases ha : df.cols.any (fun p => p.1 = m) with _ | _
  · simp only [ha, Bool.false_eq_true, if_neg, not_false_eq_true]
    rw [find?_append_other n m hnm c df.cols]
  · simp only [ha, if_pos]
    rw [find?_map_set_ne n m hnm c df.cols]

/-- On a frame whose close column is dense and non-empty, the indicator stage
succeeds and simply attaches the two indicator columns of the (unchanged)
closes. -/
lemma addTI_dense (df : DFrame) (vs : List ℚ) (hne : vs ≠ [])
    (h : lookupCol "Close" df = some (vs.map some)) :
    add_technical_indicators df =
      (setCol "EMA_20" (ema 20 (vs.map some))
        (setCol "SMA_20" (sma 20 (vs.map some))
          (setCol "Close" (vs.map some) df)), false) := by
  unfold add_technical_indicators
  rw [h]
  have hall : ((vs.map some).all fun x => x.isNone) = false := by
    rcases vs with _ | ⟨x, rest⟩
    · exact absurd rfl hne
    · simp
  simp only [hall, Bool.false_eq_true, if_neg, not_false_eq_true,
    ffill_map_some, bfill_map_some]

/-! ### Characterizing the simple moving average on dense columns -/

lemma filterMap_id_window (vs : List ℚ) (a b : ℕ) :
    (((vs.map some).take a).drop b).filterMap id = (vs.take a).drop b := by
  rw [← List.map_take, ← List.map_drop, List.filterMap_map]
  simp

lemma sma_dense_get_low (vs : List ℚ) (i : ℕ) (hi : i < 19)
    (hn : i < vs.length) :
    (sma 20 (vs.map some)).get? i = some none := by
  unfold sma
  rw [List.get?_map, List.get?_range (by simpa using hn)]
  simp only [Option.map_some']
  rw [filterMap_id_window]
  have hlen : ((vs.take (i + 1)).drop (i + 1 - 20)).length ≠ 20 := by
    simp only [List.length_drop, List.length_take]
    omega
  rw [if_neg hlen]

lemma sma_dense_get_high (vs : List ℚ) (i : ℕ) (hi : 19 ≤ i)
    (hn : i < vs.length) :
    (sma 20 (vs.map some)).get? i
      = some (some (((vs.drop (i - 19)).take 20).sum / 20)) := by
  unfold sma
  rw [List.get?_map, List.get?_range (by simpa using hn)]
  simp only [Option.map_some']
  rw [filterMap_id_window]
  have hwin : (vs.take (i + 1)).drop (i + 1 - 20) = (vs.drop (i - 19)).take 20 := by
    rw [List.drop_take]
    have h1 : i + 1 - (i + 1 - 20) = 20 := by omega
    have h2 : i + 1 - 20 = i - 19 := by omega
    rw [h1, h2]
  rw [hwin]
  have hlen : ((vs.drop (i - 19)).take 20).length = 20 := by
    simp only [List.length_take, List.length_drop]
    omega
  simp only [hlen, if_pos]
  norm_num

/-! ### Characterizing the exponential moving average on dense columns -/

lemma emaAux_get (α : ℚ) (rest : List ℚ) :
    ∀ (prev : ℚ) (i : ℕ), i < rest.length →
      (emaAux α prev rest).get? i = some (emaStep α prev rest i) := by
  induction rest with
  | nil => intro prev i hi; simp at hi
  | cons x r ih =>
      intro prev i hi
      cases i with
      | zero => rfl
      | succ j =>
          have hj : j < r.length := by simpa using hi
          simpa [emaAux, emaStep] using ih ((1 - α) * prev + α * x) j hj

lemma emaStep_succ (α : ℚ) (r : List ℚ) :
    ∀ (prev : ℚ) (i : ℕ), i + 1 < r.length →
      emaStep α prev r (i + 1)
        = (1 - α) * emaStep α prev r i + α * r.getD (i + 1) 0 := by
  induction r with
  | nil => intro prev i hi; simp at hi
  | cons x r' ih =>
      intro prev i hi
      cases i with
      | zero =>
          rcases r' with _ | ⟨z, r2⟩
          · simp at hi
          · simp [emaStep, List.getD]
      | succ j =>
          have hj : j + 1 < r'.length := by simpa using hi
          simpa [emaStep, List.getD] using ih ((1 - α) * prev + α * x) j hj

lemma emaPropSeq_eq_emaStep (x0 : ℚ) (rest : List ℚ) :
    ∀ (i : ℕ), i < rest.length →
      emaPropSeq (x0 :: rest) (i + 1) = emaStep (2 / 21) x0 rest i := by
  intro i
  induction i with
  | zero =>
      intro hi
      rcases rest with _ | ⟨x, r⟩
      · simp at hi
      · simp [emaPropSeq, emaStep, List.getD]
  | succ j ih =>
      intro hi
      have hj : j < rest.length := by omega
      rw [emaPropSeq, ih hj, emaStep_succ (2 / 21) rest x0 j hi]
      have hget : (x0 :: rest).getD (j + 1 + 1) 0 = rest.getD (j + 1) 0 := by
        simp [List.getD]
      rw [hget]

lemma ema_dense_ys (vs : List ℚ) (i : ℕ) (hn : i < vs.length) :
    (match vs with
      | [] => ([] : List ℚ)
      | x0 :: rest => x0 :: emaAux (2 / 21) x0 rest).get? i
      = some (emaPropSeq vs i) := by
  rcases vs with _ | ⟨x0, rest⟩
  · simp at hn
  · cases i with
    | zero => simp [emaPropSeq]
    | succ j =>
        have hj : j < rest.length := by simpa using hn
        show (emaAux (2 / 21) x0 rest).get? j
          = some (emaPropSeq (x0 :: rest) (j + 1))
        rw [emaAux_get (2 / 21) rest x0 j hj,
          emaPropSeq_eq_emaStep x0 rest j hj]

lemma ema_alpha : (2 : ℚ) / ((20 : ℕ) + 1 : ℚ) = 2 / 21 := by norm_num

lemma ema_dense_get_low (vs : List ℚ) (i : ℕ) (hi : i < 19)
    (hn : i < vs.length) :
    (ema 20 (vs.map some)).get? i = some none := by
  unfold ema
  rw [List.get?_map, List.get?_range (by simpa using hn)]
  simp only [Option.map_some']
  rw [if_pos (by omega)]

lemma ema_dense_get_high (vs : List ℚ) (i : ℕ) (hi : 19 ≤ i)
    (hn : i < vs.length) :
    (ema 20 (vs.map some)).get? i = some (some (emaPropSeq vs i)) := by
  unfold ema
  rw [List.get?_map, List.get?_range (by simpa using hn)]
  simp only [Option.map_some']
  rw [if_neg (by omega)]
  have hfm : (vs.map some).filterMap id = vs := by
    rw [List.filterMap_map]; simp
  rw [hfm, ema_alpha]
  exact congrArg some (ema_dense_ys vs i hn)

/-! ### Lemmas about the metrics computation -/

lemma calculate_metrics_flag_zeros (df : DFrame)
    (h : (calculate_metrics df).2 = true) :
    (calculate_metrics df).1 = Metrics.zeros := by
  unfold calculate_metrics at h ⊢
  rcases h1 : lookupCol "Close" df with _ | close <;>
    rcases h2 : lookupCol "High" df with _ | high <;>
      rcases h3 : lookupCol "Low" df with _ | low <;>
        rcases h4 : lookupCol "Volume" df with _ | vol <;>
          simp only [h1, h2, h3, h4] at h ⊢
  by_cases he : close.isEmpty
  · simp [he]
  · simp only [he, Bool.false_eq_true, if_neg, not_false_eq_true] at h ⊢
    by_cases hp : (close.head?).getD none = some 0
    · simp [hp]
    · simp [hp] at h

lemma calculate_metrics_zero_first (df : DFrame) (cs : Col)
    (h : lookupCol "Close" df = some cs) (h0 : cs.head? = some (some 0)) :
    calculate_metrics df = (Metrics.zeros, true) := by
  unfold calculate_metrics
  rcases h2 : lookupCol "High" df with _ | high <;>
    rcases h3 : lookupCol "Low" df with _ | low <;>
      rcases h4 : lookupCol "Volume" df with _ | vol <;>
        simp only [h, h2, h3, h4]
  have hne : cs.isEmpty = false := by
    cases cs with
    | nil => simp at h0
    | cons a l => rfl
  have hprev : (cs.head?).getD none = some 0 := by rw [h0]; rfl
  simp [hne, hprev]

lemma calculate_metrics_missing_col (df : DFrame)
    (h : lookupCol "Close" df = none ∨ lookupCol "High" df = none ∨
         lookupCol "Low" df = none ∨ lookupCol "Volume" df = none) :
    calculate_metrics df = (Metrics.zeros, true) := by
  unfold calculate_metrics
  rcases h1 : lookupCol "Close" df with _ | close <;>
    rcases h2 : lookupCol "High" df with _ | high <;>
      rcases h3 : lookupCol "Low" df with _ | low <;>
        rcases h4 : lookupCol "Volume" df with _ | vol <;>
          simp only [h1, h2, h3, h4] <;>
            simp [h1, h2, h3, h4] at h

/-! ### The claims -/

/-- C1: for every input series with at least 20 rows of valid (non-missing)
closing prices, the indicator stage's SMA_20 value at row `i`, for `i ≥ 19`,
equals the arithmetic mean of the closing prices at rows `i-19` through `i`,
and SMA_20 is undefined (NaN) at rows 0 through 18. -/
theorem sma20_window_mean (df : DFrame) (vs : List ℚ) (i : ℕ)
    (hclose : lookupCol "Close" df = some (vs.map some))
    (hlen : 20 ≤ vs.length) (hi : i < vs.length) :
    ∃ s, lookupCol "SMA_20" (add_technical_indicators df).1 = some s ∧
      (19 ≤ i → s.get? i = some (some (((vs.drop (i - 19)).take 20).sum / 20))) ∧
      (i < 19 → s.get? i = some none) := by
  have hne : vs ≠ [] := by intro h; rw [h] at hlen; simp at hlen
  rw [addTI_dense df vs hne hclose]
  refine ⟨sma 20 (vs.map some), ?_, ?_, ?_⟩
  · show lookupCol "SMA_20"
      (setCol "EMA_20" (ema 20 (vs.map some))
        (setCol "SMA_20" (sma 20 (vs.map some))
          (setCol "Close" (vs.map some) df))) = _
    rw [lookupCol_setCol_ne _ _ (by decide), lookupCol_setCol_self]
  · intro h19
    exact sma_dense_get_high vs i h19 hi
  · intro h19
    exact sma_dense_get_low vs i h19 hi

theorem sma20_window_mean_witness :
    ∃ s, lookupCol "SMA_20" (add_technical_indicators
        ⟨.range 20, [("Close", (List.replicate 20 (10 : ℚ)).map some)]⟩).1
          = some s ∧
      (19 ≤ 19 → s.get? 19 = some (some
        ((((List.replicate 20 (10 : ℚ)).drop (19 - 19)).take 20).sum / 20))) ∧
      (19 < 19 → s.get? 19 = some none) :=
  sma20_window_mean _ (List.replicate 20 10) 19 rfl (by decide) (by decide)

/-- C2 (amended): the EMA_20 column uses the smoothing factor `α = 2/(20+1)`,
but its recursion is propagated from the first closing price
(`y₀ = x₀`, `yₜ = (1-α)·yₜ₋₁ + α·xₜ`), with rows 0..18 undefined; it is not
seeded by the simple average of the first 20 closing prices. -/
theorem ema20_propagates_from_first_close (df : DFrame) (vs : List ℚ) (i : ℕ)
    (hclose : lookupCol "Close" df = some (vs.map some)) (hi : i < vs.length) :
    ∃ e, lookupCol "EMA_20" (add_technical_indicators df).1 = some e ∧
      (19 ≤ i → e.get? i = some (some (emaPropSeq vs i))) ∧
      (i < 19 → e.get? i = some none) := by
  have hne : vs ≠ [] := by intro h; rw [h] at hi; simp at hi
  rw [addTI_dense df vs hne hclose]
  refine ⟨ema 20 (vs.map some), ?_, ?_, ?_⟩
  · show lookupCol "EMA_20"
      (setCol "EMA_20" (ema 20 (vs.map some))
        (setCol "SMA_20" (sma 20 (vs.map some))
          (setCol "Close" (vs.map some) df))) = _
    rw [lookupCol_setCol_self]
  · intro h19
    exact ema_dense_get_high vs i h19 hi
  · intro h19
    exact ema_dense_get_low vs i h19 hi

theorem ema20_propagates_from_first_close_witness :
    ∃ e, lookupCol "EMA_20" (add_technical_indicators
        ⟨.range 20, [("Close", (List.replicate 20 (10 : ℚ)).map some)]⟩).1
          = some e ∧
      (19 ≤ 19 → e.get? 19
        = some (some (emaPropSeq (List.replicate 20 (10 : ℚ)) 19))) ∧
      (19 < 19 → e.get? 19 = some none) :=
  ema20_propagates_from_first_close _ (List.replicate 20 10) 19 rfl (by decide)

/-- C2 (counterexample): on the 20-row series with closes
`21, 0, 0, …, 0`, the EMA_20 value the stage computes at row 19 is not the
value demanded by the claim's seeding (the simple average `21/20` of the first
20 closes): the recursion is propagated from the first price instead. -/
theorem ema20_not_seeded_cex :
    ∃ e, lookupCol "EMA_20" (add_technical_indicators
        ⟨.range 20, [("Close",
          ([21, 0, 0, 0, 0, 0, 0, 0, 0, 0, 0, 0, 0, 0, 0, 0, 0, 0, 0, 0]
            : List ℚ).map some)]⟩).1 = some e ∧
      e.get? 19 ≠ some (some (emaSeeded20
        [21, 0, 0, 0, 0, 0, 0, 0, 0, 0, 0, 0, 0, 0, 0, 0, 0, 0, 0, 0] 19)) := by
  have h := addTI_dense
    ⟨.range 20, [("Close",
      ([21, 0, 0, 0, 0, 0, 0, 0, 0, 0, 0, 0, 0, 0, 0, 0, 0, 0, 0, 0]
        : List ℚ).map some)]⟩
    ([21, 0, 0, 0, 0, 0, 0, 0, 0, 0, 0, 0, 0, 0, 0, 0, 0, 0, 0, 0] : List ℚ)
    (by decide) rfl
  rw [h]
  refine ⟨ema 20
    (([21, 0, 0, 0, 0, 0, 0, 0, 0, 0, 0, 0, 0, 0, 0, 0, 0, 0, 0, 0]
      : List ℚ).map some), ?_, ?_⟩
  · show lookupCol "EMA_20" (setCol "EMA_20" _ _) = _
    rw [lookupCol_setCol_self]
  · rw [ema_dense_get_high _ 19 (by norm_num) (by norm_num)]
    simp only [ne_eq, Option.some.injEq]
    norm_num [emaPropSeq, emaSeeded20, List.getD_cons_succ, List.getD_cons_zero]

/-- C3 (amended): the normalizer is not idempotent.  Its first application
replaces the datetime index by an integer index, so a second application
fails the timezone access, reports an error, and returns the empty frame:
for every frame, applying `process_data` twice yields the empty frame. -/
theorem process_data_twice_empty (df : DFrame) :
    process_data (process_data df).1 = (DFrame.emptyDF, true) := by
  rcases df with ⟨idx, cols⟩
  cases idx with
  | dt name tz vals => rfl
  | range n => rfl

/-- C3 (counterexample): on a one-row frame whose timestamps already carry the
target display timezone, applying `process_data` twice does not agree with
applying it once, and even a single application does not pass the frame
through unchanged. -/
theorem process_data_not_idempotent_cex :
    process_data (process_data ⟨.dt "Date" (some "US/Eastern") [0],
        [("Close", [some (1 : ℚ)])]⟩).1
      ≠ process_data ⟨.dt "Date" (some "US/Eastern") [0],
          [("Close", [some (1 : ℚ)])]⟩ ∧
    (process_data ⟨.dt "Date" (some "US/Eastern") [0],
        [("Close", [some (1 : ℚ)])]⟩).1
      ≠ ⟨.dt "Date" (some "US/Eastern") [0], [("Close", [some (1 : ℚ)])]⟩ := by
  constructor
  · decide
  · decide

/-- C4: whenever the indicator stage reports an error — in particular when the
closing-price column is missing or entirely missing-valued — the failure is
caught and the function returns the original input frame unmodified. -/
lemma addTI_no_close (df : DFrame) (h : lookupCol "Close" df = none) :
    add_technical_indicators df = (df, true) := by
  unfold add_technical_indicators
  rw [h]

lemma addTI_all_nan (df : DFrame) (cs : Col)
    (h : lookupCol "Close" df = some cs)
    (hall : cs.all (fun x => x.isNone) = true) :
    add_technical_indicators df = (df, true) := by
  unfold add_technical_indicators
  rw [h]
  exact if_pos hall

lemma addTI_else (df : DFrame) (cs : Col)
    (h : lookupCol "Close" df = some cs)
    (hall : cs.all (fun x => x.isNone) = false) :
    add_technical_indicators df =
      (setCol "EMA_20" (ema 20 (bfill (ffill cs)))
        (setCol "SMA_20" (sma 20 (bfill (ffill cs)))
          (setCol "Close" (bfill (ffill cs)) df)), false) := by
  unfold add_technical_indicators
  rw [h]
  simp only [hall, Bool.false_eq_true, if_neg, not_false_eq_true]

lemma addTI_flag_imp (df : DFrame)
    (h : (add_technical_indicators df).2 = true) :
    (add_technical_indicators df).1 = df := by
  rcases hc : lookupCol "Close" df with _ | cs
  · rw [addTI_no_close df hc]
  · rcases hall : cs.all (fun x => x.isNone) with _ | _
    · rw [addTI_else df cs hc hall] at h
      exact absurd h (by simp)
    · rw [addTI_all_nan df cs hc hall]

theorem add_technical_indicators_error_preserves_input (df : DFrame) :
    ((add_technical_indicators df).2 = true →
      (add_technical_indicators df).1 = df) ∧
    (lookupCol "Close" df = none → (add_technical_indicators df).2 = true) ∧
    (∀ cs, lookupCol "Close" df = some cs →
      cs.all (fun x => x.isNone) = true →
      (add_technical_indicators df).2 = true) :=
  ⟨addTI_flag_imp df,
   fun h => by rw [addTI_no_close df h],
   fun cs h hall => by rw [addTI_all_nan df cs h hall]⟩

theorem add_technical_indicators_error_preserves_input_witness :
    (add_technical_indicators ⟨.range 1, [("Open", [some (1 : ℚ)])]⟩).2
      = true ∧
    (add_technical_indicators ⟨.range 1, [("Open", [some (1 : ℚ)])]⟩).1
      = ⟨.range 1, [("Open", [some (1 : ℚ)])]⟩ :=
  ⟨(add_technical_indicators_error_preserves_input _).2.1 rfl,
   (add_technical_indicators_error_preserves_input _).1
     ((add_technical_indicators_error_preserves_input _).2.1 rfl)⟩

/-- C5: for every series whose first-row reference closing price is zero, the
metrics computation reports the percent change as 0 (the division error is
caught) rather than terminating the pipeline. -/
theorem calculate_metrics_zero_reference_pct_zero (df : DFrame) (cs : Col)
    (h : lookupCol "Close" df = some cs) (h0 : cs.head? = some (some 0)) :
    (calculate_metrics df).1.pct_change = some 0 := by
  rw [calculate_metrics_zero_first df cs h h0]
  rfl

theorem calculate_metrics_zero_reference_pct_zero_witness :
    (calculate_metrics ⟨.range 1, [("Close", [some (0 : ℚ)])]⟩).1.pct_change
      = some 0 :=
  calculate_metrics_zero_reference_pct_zero _ [some 0] rfl rfl

/-- C6: for every fetch that returns an empty frame, the update handler shows
a user-visible warning and runs neither the indicator stage nor the metrics
stage (the model is a total function: no exception propagates). -/
theorem update_handler_empty_fetch_skips_stages (fetched : DFrame)
    (h : fetched.isEmpty = true) :
    update_handler fetched = ⟨true, none, none⟩ := by
  unfold update_handler
  simp [h]

theorem update_handler_empty_fetch_skips_stages_witness :
    update_handler DFrame.emptyDF = ⟨true, none, none⟩ :=
  update_handler_empty_fetch_skips_stages DFrame.emptyDF rfl

/-- C7: a fetch with period `1wk` issues an explicit retrieval window from
`now - 7 days` to `now`; every other period is delegated via the provider's
period keyword. -/
theorem fetch_one_week_explicit_window (ticker period interval : String)
    (now : ℤ) :
    (period = "1wk" →
      fetchRequest ticker period interval now
        = .byWindow ticker (now - 7 * 86400) now interval) ∧
    (period ≠ "1wk" →
      fetchRequest ticker period interval now
        = .byPeriod ticker period interval) := by
  constructor
  · intro h
    simp [fetchRequest, h]
  · intro h
    simp [fetchRequest, h]

theorem fetch_one_week_explicit_window_witness :
    fetchRequest "AAPL" "1wk" "30m" 0
      = .byWindow "AAPL" (0 - 7 * 86400) 0 "30m" ∧
    fetchRequest "AAPL" "1d" "1m" 0 = .byPeriod "AAPL" "1d" "1m" :=
  ⟨(fetch_one_week_explicit_window "AAPL" "1wk" "30m" 0).1 rfl,
   (fetch_one_week_explicit_window "AAPL" "1d" "1m" 0).2 (by decide)⟩

/-- C8: when the closing-price column has at least one non-missing value, the
indicator stage succeeds, its close column is the forward-fill followed by the
backward-fill of the input closes, that column has no missing values, and both
moving averages are computed from exactly that filled column. -/
theorem close_fill_dense_before_averaging (df : DFrame) (cs : Col)
    (h : lookupCol "Close" df = some cs)
    (hs : cs.any (fun x => x.isSome) = true) :
    ∃ d, add_technical_indicators df = (d, false) ∧
      lookupCol "Close" d = some (bfill (ffill cs)) ∧
      (bfill (ffill cs)).all (fun x => x.isSome) = true ∧
      lookupCol "SMA_20" d = some (sma 20 (bfill (ffill cs))) ∧
      lookupCol "EMA_20" d = some (ema 20 (bfill (ffill cs))) := by
  have hall : (cs.all fun x => x.isNone) = false := by
    rcases List.any_eq_true.mp hs with ⟨x, hx, hsome⟩
    by_contra hc
    rw [Bool.not_eq_false] at hc
    have hxn := List.all_eq_true.mp hc x hx
    rcases x with _ | v
    · simp at hsome
    · simp at hxn
  unfold add_technical_indicators
  rw [h]
  simp only [hall, Bool.false_eq_true, if_neg, not_false_eq_true]
  refine ⟨_, rfl, ?_, bfill_ffill_all cs hs, ?_, ?_⟩
  · rw [lookupCol_setCol_ne _ _ (by decide), lookupCol_setCol_ne _ _ (by decide),
      lookupCol_setCol_self]
  · rw [lookupCol_setCol_ne _ _ (by decide), lookupCol_setCol_self]
  · rw [lookupCol_setCol_self]

theorem close_fill_dense_before_averaging_witness :
    ∃ d, add_technical_indicators
        ⟨.range 2, [("Close", [none, some (3 : ℚ)])]⟩ = (d, false) ∧
      lookupCol "Close" d = some (bfill (ffill [none, some (3 : ℚ)])) ∧
      (bfill (ffill [none, some (3 : ℚ)])).all (fun x => x.isSome) = true ∧
      lookupCol "SMA_20" d
        = some (sma 20 (bfill (ffill [none, some (3 : ℚ)]))) ∧
      lookupCol "EMA_20" d
        = some (ema 20 (bfill (ffill [none, some (3 : ℚ)]))) :=
  close_fill_dense_before_averaging _ [none, some 3] rfl (by decide)

/-- C9: whenever `calculate_metrics` reports an error — for example a zero
first closing price, or a missing required column — it returns all six metrics
as zero, discarding even the metrics that were individually computable. -/
theorem calculate_metrics_error_all_zeros (df : DFrame) :
    ((calculate_metrics df).2 = true →
      (calculate_metrics df).1 = Metrics.zeros) ∧
    (∀ cs, lookupCol "Close" df = some cs → cs.head? = some (some 0) →
      (calculate_metrics df).2 = true) ∧
    ((lookupCol "Close" df = none ∨ lookupCol "High" df = none ∨
      lookupCol "Low" df = none ∨ lookupCol "Volume" df = none) →
      (calculate_metrics df).2 = true) :=
  ⟨calculate_metrics_flag_zeros df,
   fun cs h h0 => by rw [calculate_metrics_zero_first df cs h h0],
   fun h => by rw [calculate_metrics_missing_col df h]⟩

theorem calculate_metrics_error_all_zeros_witness :
    (calculate_metrics ⟨.range 1, [("Close", [some (0 : ℚ)]),
        ("High", [some (5 : ℚ)]), ("Low", [some (1 : ℚ)]),
        ("Volume", [some (9 : ℚ)])]⟩).2 = true ∧
    (calculate_metrics ⟨.range 1, [("Close", [some (0 : ℚ)]),
        ("High", [some (5 : ℚ)]), ("Low", [some (1 : ℚ)]),
        ("Volume", [some (9 : ℚ)])]⟩).1 = Metrics.zeros :=
  ⟨(calculate_metrics_error_all_zeros _).2.1 [some 0] rfl rfl,
   (calculate_metrics_error_all_zeros _).1
     ((calculate_metrics_error_all_zeros _).2.1 [some 0] rfl rfl)⟩

/-- C10: `fetch_stock_data` never propagates an exception (it is a total
function of the provider's behaviour): it either returns the provider's
non-empty result with no error, or reports an error and returns the empty
frame — and a provider result with zero rows lands in the same empty-frame
error outcome as a provider exception. -/
theorem fetch_stock_data_total (provider : ProviderRequest → FetchOutcome)
    (ticker period interval : String) (now : ℤ) :
    fetch_stock_data provider ticker period interval now
      = (DFrame.emptyDF, true) ∨
    (∃ df, provider (fetchRequest ticker period interval now) = .rows df ∧
      df.isEmpty = false ∧
      fetch_stock_data provider ticker period interval now = (df, false)) := by
  unfold fetch_stock_data
  rcases hp : provider (fetchRequest ticker period interval now) with df | _
  · rcases he : df.isEmpty with _ | _
    · right
      refine ⟨df, rfl, he, ?_⟩
      show (if df.isEmpty = true then (DFrame.emptyDF, true) else (df, false))
        = (df, false)
      rw [if_neg (by simp [he])]
    · left
      show (if df.isEmpty = true then (DFrame.emptyDF, true) else (df, false))
        = (DFrame.emptyDF, true)
      rw [if_pos he]
  · left
    rfl
